import Mathlib

/-!
Shallow embedding of the LFSIR raw-data cleaning pipeline
(src/lfsir/core/data_cleaner.py and src/lfsir/core/metadata_reader.py).

Cell values of a pandas column are modelled by `Val`; a column is a
`List Val`; a table is an ordered association list from column names to
columns.  Python exceptions are modelled by the `Err` type and fallible
code returns `Except Err`.  In-place mutation of metadata dictionaries
is modelled by explicit state passing: a function that mutates its
`table_metadata` argument returns the updated value alongside its
result.
-/

set_option autoImplicit false

namespace LFSIR

/-- A scalar value in a pandas cell or a YAML document: the null / NaN
marker, a boolean, an integer, a non-integral numeric value (pandas
floats are modelled as exact fractions kept in lowest terms), or a
string. -/
inductive Val where
  | null
  | bool (b : Bool)
  | int (n : Int)
  | float (num : Int) (den : Nat)
  | str (s : String)
deriving DecidableEq

/-- Python exceptions raised by the cleaning pipeline.  Each constructor
carries the data interpolated into the exception message at the
corresponding raise site of the source. -/
inductive Err where
  /-- Python KeyError: a dictionary was subscripted with an absent key. -/
  | keyError (key : String)
  /-- Python TypeError, e.g. comparing a year range bound with a non-int. -/
  | typeError
  /-- Python IndexError, e.g. taking the first key of an empty category map. -/
  | indexError
  /-- FileNotFoundError from pd.read_csv. -/
  | fileNotFound
  /-- data_cleaner.py line 49: Table X is not available for year Y. -/
  | tableNotAvailable (table : String) (year : String)
  /-- Modelled from the spec: utils.resolve_metadata fails when no
  year-range branch matches and no fallback key exists. -/
  | resolutionError
  /-- data_cleaner.py lines 92-94: the column was not found in the
  metadata (raised when the missing-column policy is the string error). -/
  | unexpectedColumn (column : String)
  /-- data_cleaner.py line 113: metadata for a listed column is neither a
  dict nor the drop sentinel. -/
  | invalidColumnMeta (column : String)
  /-- data_cleaner.py line 117: the missings policy is neither drop nor error. -/
  | invalidMissingTreatment
  /-- A failing astype cast (TypeError / ValueError inside pandas). -/
  | castError
  /-- `Series.cat.rename_categories` raises when the renamed categories
  are not pairwise distinct: ValueError, Categorical categories must be
  unique. -/
  | duplicateCategories
  /-- pd.to_numeric with the default errors policy raises on text it
  cannot parse; the payload is the offending string. -/
  | parseError (value : String)
deriving DecidableEq

/-- A single quote character, kept out of string literals. -/
def sq : String := String.mk [Char.ofNat 39]

/-- The exception message attached to each error, mirroring the f-strings
at the raise sites of the source. -/
def Err.render : Err → String
  | .keyError k => "KeyError: " ++ k
  | .typeError => "TypeError"
  | .indexError => "IndexError: list index out of range"
  | .fileNotFound => "FileNotFoundError"
  | .tableNotAvailable t y => "Table " ++ t ++ " is not available for year " ++ y
  | .resolutionError => "ResolutionError"
  | .unexpectedColumn c =>
      "Error: The column " ++ sq ++ c ++ sq ++ " was not found in the metadata."
  | .invalidColumnMeta c => "Metadata for column " ++ c ++ " is not valid"
  | .invalidMissingTreatment => "Missing treatment is not valid"
  | .castError => "cannot cast"
  | .duplicateCategories => "Categorical categories must be unique"
  | .parseError v => "Unable to parse string " ++ sq ++ v ++ sq

/-- First-match lookup in an ordered association list (a Python dict in
insertion order). -/
def assocFind {α β : Type} [DecidableEq α] : List (α × β) → α → Option β
  | [], _ => none
  | (k, v) :: rest, key => if k = key then some v else assocFind rest key

/-- Membership test mirroring the Python `key in dict` operator. -/
def containsKey {α β : Type} [DecidableEq α] (l : List (α × β)) (k : α) : Bool :=
  (assocFind l k).isSome

/-- Boolean check that an `Except` result is a success. -/
def exceptIsOk {α : Type} : Except Err α → Bool
  | .ok _ => true
  | .error _ => false

/-! ## Text sanitation (`_general_cleaning`, data_cleaner.py lines 161-172) -/

/-- The character class removed by the regex built from
`chars_to_remove` (line 164): newline, carriage return, comma, at sign,
plus, asterisk, square brackets, underscore, question mark, ampersand. -/
def removedChars : List Char :=
  ['\n', '\r', ',', '@', '+', '*', '[', ']', '_', '?', '&']

/-- A regex word character (ASCII), as used by the word boundary in the
pattern removing a leading hyphen. -/
def isWordChar (c : Char) : Bool :=
  c.isAlphanum || c = '_'

/-- ASCII whitespace, the characters matched by the regex class used in
the final empty-value pattern. -/
def isPySpace (c : Char) : Bool :=
  c = ' ' || c = '\t' || c = '\n' || c = '\r' || c = Char.ofNat 11 || c = Char.ofNat 12

/-- A character matched by the full-string pattern that turns a value
into a missing marker: whitespace, dot or hyphen. -/
def isSpaceDotDash (c : Char) : Bool :=
  isPySpace c || c = '.' || c = '-'

/-- Drop all trailing dots, as `str.rstrip` with a dot argument does. -/
def rstripDot (cs : List Char) : List Char :=
  (cs.reverse.dropWhile (fun c => c = '.')).reverse

/-- One left-to-right pass removing every hyphen that is preceded by a
word character in the original string: the substitution of the pattern
word-boundary-then-hyphen by the empty string.  The first argument is
the previous character of the original string. -/
def stripWBHyphen : Option Char → List Char → List Char
  | _, [] => []
  | prev, c :: rest =>
    if c = '-' && (match prev with | some p => isWordChar p | none => false) then
      stripWBHyphen (some c) rest
    else
      c :: stripWBHyphen (some c) rest

/-- The per-string sanitation of `_general_cleaning`: replace the middle
dot (code point 183) by a dot, strip trailing dots, remove the fixed
punctuation set, remove hyphens at a word boundary, and finally turn a
string consisting only of whitespace, dots and hyphens (including the
empty string) into the missing marker. -/
def sanitizeStr (s : String) : Val :=
  let s1 := s.toList.map (fun c => if c = Char.ofNat 183 then '.' else c)
  let s2 := rstripDot s1
  let s3 := s2.filter (fun c => !(removedChars.contains c))
  let s4 := stripWBHyphen none s3
  if s4.all isSpaceDotDash then Val.null else Val.str (String.mk s4)

/-- Whether a cell is not a string. -/
def cellNotStr : Val → Bool
  | .str _ => false
  | _ => true

/-- pandas `is_numeric_dtype`: a CSV-read column is numeric-dtyped
exactly when none of its cells is a string (columns with a string cell
are object-dtyped). -/
def isNumericDtype (col : List Val) : Bool :=
  col.all cellNotStr

/-- Sanitation of one cell of an object-dtyped column.  The `.str`
accessor used by the source maps every non-string cell (including the
NaN marker) to NaN, and sanitizes string cells. -/
def cleanCell : Val → Val
  | .str s => sanitizeStr s
  | _ => .null

/-- `_general_cleaning` (lines 161-172): numeric-dtyped columns are
returned unchanged; otherwise every cell goes through the string
sanitation pipeline. -/
def general_cleaning (col : List Val) : List Val :=
  if isNumericDtype col then col else col.map cleanCell

/-! ## Numeric parsing and casts -/

/-- Interpret a list of decimal digits. -/
def digitsToNat (cs : List Char) : Nat :=
  cs.foldl (fun a c => a * 10 + (c.toNat - 48)) 0

/-- Split an optional leading sign from a numeral; `true` means negative. -/
def splitSign : List Char → Bool × List Char
  | '-' :: rest => (true, rest)
  | '+' :: rest => (false, rest)
  | cs => (false, cs)

/-- Apply a sign to an integer. -/
def applySign (neg : Bool) (n : Int) : Int :=
  if neg then -n else n

/-- Fuel-bounded Euclidean algorithm; the fuel is always sufficient when
it starts above the first argument. -/
def natGcdAux : Nat → Nat → Nat → Nat
  | 0, _, b => b
  | fuel + 1, a, b => if a = 0 then b else natGcdAux fuel (b % a) a

/-- Greatest common divisor, written to reduce structurally. -/
def natGcd (a b : Nat) : Nat := natGcdAux (a + 1) a b

/-- The float value num / den reduced to lowest terms. -/
def mkFloat (num : Int) (den : Nat) : Val :=
  let g := natGcd num.natAbs den
  .float (num / (g : Int)) (den / g)

/-- Parse numeric text as `pd.to_numeric` does: an optional sign, then
either a plain integer (giving an integer value) or a decimal fraction
(giving a float).  Exponent notation does not occur in the survey data
and is not modelled. -/
def parseNumeric (s : String) : Option Val :=
  let (neg, body) := splitSign s.toList
  let intPart := body.takeWhile Char.isDigit
  let rest := body.dropWhile Char.isDigit
  match rest with
  | [] =>
    if intPart.isEmpty then none
    else some (.int (applySign neg (digitsToNat intPart)))
  | c :: frac =>
    if c = '.' && frac.all Char.isDigit && !(intPart.isEmpty && frac.isEmpty) then
      some (mkFloat (applySign neg (digitsToNat intPart * 10 ^ frac.length + digitsToNat frac))
        (10 ^ frac.length))
    else none

/-- `pd.to_numeric` on one cell: nulls propagate, numbers pass through
(the downcast argument only narrows the storage width and never changes
a value), booleans become 0 or 1, and text must parse or the whole
conversion raises. -/
def toNumericCell : Val → Except Err Val
  | .null => .ok .null
  | .int n => .ok (.int n)
  | .float n d => .ok (.float n d)
  | .bool b => .ok (.int (cond b 1 0))
  | .str s =>
    match parseNumeric s with
    | some v => .ok v
    | none => .error (.parseError s)

/-- Lower bound of a signed 32-bit integer. -/
def int32Min : Int := -(2 ^ 31)

/-- Upper bound of a signed 32-bit integer. -/
def int32Max : Int := 2 ^ 31 - 1

/-- Parse text as a plain integer (optional sign then digits), the
conversion numpy applies when casting strings to an integer dtype. -/
def parseIntStr (s : String) : Option Int :=
  let (neg, body) := splitSign s.toList
  if body.isEmpty || !(body.all Char.isDigit) then none
  else some (applySign neg (digitsToNat body))

/-- `astype` to the nullable Int32 dtype on one cell: nulls propagate,
in-range integers pass through, booleans become 0 or 1, integral floats
are truncated to their integer value, digit strings are parsed; any
other cell makes the cast raise. -/
def astypeInt32Cell : Val → Except Err Val
  | .null => .ok .null
  | .bool b => .ok (.int (cond b 1 0))
  | .int n =>
    if int32Min ≤ n && n ≤ int32Max then .ok (.int n) else .error .castError
  | .float num den =>
    if den = 1 && int32Min ≤ num && num ≤ int32Max then .ok (.int num)
    else .error .castError
  | .str s =>
    match parseIntStr s with
    | some n =>
      if int32Min ≤ n && n ≤ int32Max then .ok (.int n) else .error .castError
    | none => .error .castError

/-- Bit width of a fixed-width unsigned dtype name. -/
def uintWidth (t : String) : Nat :=
  if t = "UInt8" then 8 else if t = "UInt16" then 16 else if t = "UInt32" then 32 else 64

/-- `astype` to a fixed-width nullable unsigned dtype on one cell. -/
def castUIntCell (w : Nat) : Val → Except Err Val
  | .null => .ok .null
  | .bool b => .ok (.int (cond b 1 0))
  | .int n => if 0 ≤ n && n < (2 ^ w : Int) then .ok (.int n) else .error .castError
  | .float _ _ => .error .castError
  | .str _ => .error .castError

/-- The elementwise equality comparison of a nullable Int32 column with
the declared true value: nulls propagate, integers compare against the
scalar (a non-integer scalar compares unequal). -/
def boolCompare (tc : Val) : Val → Val
  | .null => .null
  | .int n => .bool (decide (Val.int n = tc))
  | v => .bool (decide (v = tc))

/-! ## Column metadata and the typed coercion
(`_apply_type_to_column`, data_cleaner.py lines 140-158) -/

/-- The well-formed dictionary form of a column metadata entry.  Fields
the source reads by subscript are options: reading an absent field
raises a KeyError. -/
structure ColMetaStruct where
  new_name : Option String
  type : Option String
  replace : Option (List (Val × Val))
  true_condition : Option Val
  categories : Option (List (Val × Val))
deriving DecidableEq

/-- A value of the columns mapping of a table metadata document: the
drop sentinel (the string drop), the error sentinel (the string error),
a well-formed dictionary, or any other YAML scalar. -/
inductive ColMetaVal where
  | drop
  | err
  | dict (m : ColMetaStruct)
  | other (v : Val)
deriving DecidableEq

/-- `Series.cat.rename_categories` with a dictionary, applied after the
cast to a categorical dtype: a cell whose value is a key of the map is
relabeled to the mapped label, any other non-null cell keeps its value,
nulls stay null.  pandas first validates that the renamed categories
stay pairwise distinct (`renamedUnique` below); this function is the
relabeling applied when that validation passes. -/
def renameCategories (col : List Val) (cats : List (Val × Val)) : List Val :=
  col.map (fun v => match v with
    | .null => .null
    | v => (assocFind cats v).getD v)

/-- The categories of a column under `astype` to a categorical dtype:
its distinct non-null values (order is irrelevant here, only the
uniqueness validation below consumes this list). -/
def distinctVals (col : List Val) : List Val :=
  col.foldl (fun acc v => match v with
    | .null => acc
    | v => if v ∈ acc then acc else acc ++ [v]) []

/-- Whether a list of values is pairwise distinct. -/
def listNodupB : List Val → Bool
  | [] => true
  | v :: rest => if v ∈ rest then false else listNodupB rest

/-- The validation `Series.cat.rename_categories` performs before
relabeling: after applying the map to the categories of the column, the
renamed categories must still be pairwise distinct, otherwise pandas
raises ValueError, Categorical categories must be unique. -/
def renamedUnique (col : List Val) (cats : List (Val × Val)) : Bool :=
  listNodupB ((distinctVals col).map (fun v => (assocFind cats v).getD v))

/-- The declared type names recognized by `_apply_type_to_column`. -/
def recognizedTypes : List String :=
  ["string", "boolean", "unsigned", "integer", "float",
   "UInt8", "UInt16", "UInt32", "UInt64", "category"]

/-- `_apply_type_to_column` (lines 140-158): general cleaning, then the
comparison chain over the declared type.  An absent or string type
returns the cleaned column; boolean casts to Int32 and compares with the
true condition; unsigned, integer and float run to_numeric; the
fixed-width UInt names cast directly; category takes the first key of
the category map, casts through Int32 for integer keys, and relabels.
A declared type matching none of the branches falls through to the
initial all-NaN series built on line 142. -/
def apply_type_to_column (col0 : List Val) (m : ColMetaStruct) : Except Err (List Val) :=
  let col := general_cleaning col0
  match m.type with
  | none => .ok col
  | some t =>
    if t = "string" then .ok col
    else if t = "boolean" then
      match col.mapM astypeInt32Cell with
      | .error e => .error e
      | .ok c =>
        match m.true_condition with
        | none => .error (.keyError "true_condition")
        | some tc => .ok (c.map (boolCompare tc))
    else if t = "unsigned" ∨ t = "integer" ∨ t = "float" then
      col.mapM toNumericCell
    else if t = "UInt8" ∨ t = "UInt16" ∨ t = "UInt32" ∨ t = "UInt64" then
      col.mapM (castUIntCell (uintWidth t))
    else if t = "category" then
      match m.categories with
      | none => .error (.keyError "categories")
      | some [] => .error .indexError
      | some ((k0, l0) :: cs) =>
        match k0 with
        | .int k =>
          match col.mapM astypeInt32Cell with
          | .error e => .error e
          | .ok c =>
            if renamedUnique c ((Val.int k, l0) :: cs) then
              .ok (renameCategories c ((Val.int k, l0) :: cs))
            else .error .duplicateCategories
        | _ =>
          if renamedUnique col ((k0, l0) :: cs) then
            .ok (renameCategories col ((k0, l0) :: cs))
          else .error .duplicateCategories
    else .ok (col.map (fun _ => .null))

/-- `Series.replace` with a dictionary: cells equal to a key of the map
are replaced by the mapped value, all others kept. -/
def replaceVals (col : List Val) (rmap : List (Val × Val)) : List Val :=
  col.map (fun v => (assocFind rmap v).getD v)

/-- `_apply_metadata_to_column` (lines 133-137): value substitution when
a replacement map is declared, then the typed coercion. -/
def apply_metadata_to_column (col : List Val) (m : ColMetaStruct) : Except Err (List Val) :=
  let col := match m.replace with
    | some rmap => replaceVals col rmap
    | none => col
  apply_type_to_column col m

/-! ## Settings dictionaries
(`collect_settings` / `_update_settings`, metadata_reader.py lines 146-184,
and `_get_table_settings`, data_cleaner.py lines 121-130) -/

/-- A flat settings block: ordered string-keyed mapping to scalars. -/
abbrev SettingsDict := List (String × Val)

/-- A flattened configuration document: ordered mapping from key paths
(tuples of segment names, as produced by `flatten_dict`) to leaf values. -/
abbrev FlatSettings := List (List String × Val)

/-- Python dict assignment at an existing key: the binding keeps its
position and receives the new value. -/
def setKey {α β : Type} [DecidableEq α] (l : List (α × β)) (k : α) (v : β) : List (α × β) :=
  l.map (fun kv => if kv.1 = k then (k, v) else kv)

/-- `_update_settings` (metadata_reader.py lines 180-184): for every
key of the override, overwrite the value in the base settings when the
key is already present; keys absent from the base are ignored. -/
def update_settings (s newSettings : FlatSettings) : FlatSettings :=
  newSettings.foldl (fun acc kv => if containsKey acc kv.1 then setKey acc kv.1 kv.2 else acc) s

/-- The in-place default inheritance loop of `_get_table_settings`
(lines 127-129): every key of the document-wide defaults that is absent
from the per-table settings is appended with its default value. -/
def fillDefaults (s dts : SettingsDict) : SettingsDict :=
  dts.foldl (fun acc kv => if containsKey acc kv.1 then acc else acc ++ [kv]) s

/-! ## Table metadata, the registry, and year resolution -/

/-- A branch key of a year-varying metadata mapping.
Modelled from the spec: a year-range expression is a single year, an
inclusive range, or a fallback key. -/
inductive YearKey where
  | single (y : Int)
  | range (a b : Int)
  | fallback
deriving DecidableEq

/-- A possibly year-varying metadata value: either a plain value or a
mapping keyed by year-range expressions. -/
inductive YearVal where
  | plain (v : Val)
  | byYear (branches : List (YearKey × Val))
deriving DecidableEq

/-- Whether a year-range key contains the target year. -/
def yearKeyMatches (y : Int) : YearKey → Bool
  | .single a => decide (y = a)
  | .range a b => decide (a ≤ y) && decide (y ≤ b)
  | .fallback => true

/-- Modelled from the spec: `utils.resolve_metadata` (module
`lfsir.utils` is not under src/).  At a year-keyed mapping the first
branch (document order) containing the target year is selected; with no
match and no fallback, resolution fails.  A non-integer target year
cannot be compared with the range bounds and raises a TypeError. -/
def resolve_metadata (v : YearVal) (year : Val) : Except Err Val :=
  match v with
  | .plain x => .ok x
  | .byYear bs =>
    match year with
    | .int y =>
      match bs.find? (fun kv => yearKeyMatches y kv.1) with
      | some kv => .ok kv.2
      | none => .error .resolutionError
    | _ => .error .typeError

/-- A table metadata document as stored in the registry.  Year variance
is modelled on the file identifier; the settings block and the columns
mapping are static in this model (the claims under proof never exercise
year-varying branches inside them). -/
structure TableMeta where
  file_code : YearVal
  settings : Option SettingsDict
  columns : List (String × ColMetaVal)
deriving DecidableEq

/-- A year-resolved table metadata document. -/
structure RTableMeta where
  file_code : Val
  settings : Option SettingsDict
  columns : List (String × ColMetaVal)
deriving DecidableEq

/-- Resolution of a whole table metadata document to a target year. -/
def resolveTableMeta (tm : TableMeta) (year : Val) : Except Err RTableMeta :=
  match resolve_metadata tm.file_code year with
  | .error e => .error e
  | .ok fc => .ok ⟨fc, tm.settings, tm.columns⟩

/-- The process-wide metadata registry, `metadata.tables` of
metadata_reader.py.  The source keeps the document-wide default table
settings under the key default_table_settings of the same mapping; the
model stores them in a separate field, since the cleaner only ever reads
that entry as a settings block. -/
structure Registry where
  tables : List (String × TableMeta)
  default_table_settings : SettingsDict
deriving DecidableEq

/-- `_get_table_settings` (data_cleaner.py lines 121-130), with the
in-place mutation made explicit: when the table metadata has no settings
block the document-wide defaults are returned and nothing is written;
otherwise the missing default keys are written into the settings block
and the filled block is returned together with the mutated metadata. -/
def get_table_settings (dts : SettingsDict) (tm : RTableMeta) : SettingsDict × RTableMeta :=
  match tm.settings with
  | none => (dts, tm)
  | some s =>
    let s2 := fillDefaults s dts
    (s2, { tm with settings := some s2 })

/-- The return type of `_get_column_metadata`: a well-formed dictionary
or one of the two sentinels. -/
inductive ColMetaRes where
  | drop
  | err
  | meta (m : ColMetaStruct)
deriving DecidableEq

/-- `_get_column_metadata` (data_cleaner.py lines 100-118).  The table
settings are resolved (mutating the metadata) first.  A listed column
must be a dictionary or the drop sentinel, anything else is invalid; an
unlisted column falls back to the missings policy of the table settings,
which must be drop or error. -/
def get_column_metadata (dts : SettingsDict) (tm : RTableMeta) (name : String) :
    Except Err ColMetaRes × RTableMeta :=
  let p := get_table_settings dts tm
  match assocFind p.2.columns name with
  | some (.dict m) => (.ok (.meta m), p.2)
  | some .drop => (.ok .drop, p.2)
  | some _ => (.error (.invalidColumnMeta name), p.2)
  | none =>
    match assocFind p.1 "missings" with
    | some (.str s) =>
      if s = "drop" then (.ok .drop, p.2)
      else if s = "error" then (.ok .err, p.2)
      else (.error .invalidMissingTreatment, p.2)
    | some _ => (.error .invalidMissingTreatment, p.2)
    | none => (.error (.keyError "missings"), p.2)

/-! ## Table assembly
(`_apply_metadata_to_table`, data_cleaner.py lines 84-97) -/

/-- A raw or cleaned table: ordered association of column names to
columns. -/
abbrev Table := List (String × List Val)

/-- Python str.upper(), character by character (the survey column names
are ASCII). -/
def pyUpper (s : String) : String :=
  String.mk (s.toList.map Char.toUpper)

/-- Assignment `cleaned_table[name] = column` on a DataFrame: an
existing column is overwritten in place, a new name is appended. -/
def dfAssign (acc : Table) (k : String) (v : List Val) : Table :=
  if containsKey acc k then setKey acc k v else acc ++ [(k, v)]

/-- The column loop of `_apply_metadata_to_table`, threading the
cleaned-table accumulator and the (mutated) table metadata.  The lookup
receives the upper-cased raw name; the unexpected-column error carries
the original name. -/
def applyCols (dts : SettingsDict) : RTableMeta → Table → Table → Except Err Table × RTableMeta
  | tm, [], acc => (.ok acc, tm)
  | tm, (n, c) :: rest, acc =>
    match get_column_metadata dts tm (pyUpper n) with
    | (.error e, tm2) => (.error e, tm2)
    | (.ok .drop, tm2) => applyCols dts tm2 rest acc
    | (.ok .err, tm2) => (.error (.unexpectedColumn n), tm2)
    | (.ok (.meta m), tm2) =>
      match apply_metadata_to_column c m with
      | .error e => (.error e, tm2)
      | .ok c2 =>
        match m.new_name with
        | none => (.error (.keyError "new_name"), tm2)
        | some nn => applyCols dts tm2 rest (dfAssign acc nn c2)

/-- `_apply_metadata_to_table` (lines 84-97): run the column loop over
the raw table in raw column order, starting from an empty cleaned
table. -/
def apply_metadata_to_table (dts : SettingsDict) (tm : RTableMeta) (raw : Table) :
    Except Err Table × RTableMeta :=
  applyCols dts tm raw []

/-! ## Loading and the batch
(`load_raw_data` / `open_and_clean_table` / `save_cleaned_tables`,
data_cleaner.py lines 22-52, 55-81, 175-207) -/

/-- Python str() of a scalar, as used to build file paths. -/
def pyStr : Val → String
  | .null => "None"
  | .bool b => cond b "True" "False"
  | .int n => toString n
  | .float num _ => toString num
  | .str s => s

/-- The extracted-data directory: per (year string, file code string)
the raw CSV table, if the file exists. -/
abbrev FileSystem := List ((String × String) × Table)

/-- `metadata.tables[table_name]`: subscripting the registry mapping.
The mapping is keyed by table-name strings, so a non-string subscript
(or an absent name) raises a KeyError. -/
def lookupTable (reg : Registry) (tableName : Val) : Except Err TableMeta :=
  match tableName with
  | .str s =>
    match assocFind reg.tables s with
    | some tm => .ok tm
    | none => .error (.keyError s)
  | v => .error (.keyError (pyStr v))

/-- `load_raw_data` (lines 22-52): resolve the file code of the table
for the year, fail when it is null, and read the CSV at
extracted_data/{year}/{file_code}.csv. -/
def load_raw_data (fs : FileSystem) (reg : Registry) (year tableName : Val) :
    Except Err Table :=
  match lookupTable reg tableName with
  | .error e => .error e
  | .ok tm =>
    match resolve_metadata tm.file_code year with
    | .error e => .error e
    | .ok fc =>
      if fc = .null then .error (.tableNotAvailable (pyStr tableName) (pyStr year))
      else
        match assocFind fs (pyStr year, pyStr fc) with
        | some t => .ok t
        | none => .error .fileNotFound

/-- Replace the settings block of a table metadata document. -/
def withSettings (s : Option SettingsDict) (tm : TableMeta) : TableMeta :=
  ⟨tm.file_code, s, tm.columns⟩

/-- Write the (possibly mutated) settings block of a table back into the
registry entry it was resolved from: the resolved metadata shares its
settings dictionary with the registry document, so the in-place default
inheritance is visible through the registry. -/
def updateTableSettings (reg : Registry) (tableName : Val) (s : Option SettingsDict) : Registry :=
  match tableName with
  | .str t =>
    let newTables := reg.tables.map
      (fun kv => if kv.1 = t then (kv.1, withSettings s kv.2) else kv)
    { reg with tables := newTables }
  | _ => reg

/-- `open_and_clean_table` (lines 55-81): load the raw table, resolve
the table metadata to the year, and apply it.  The returned registry
reflects the in-place mutation of the settings block. -/
def open_and_clean_table (fs : FileSystem) (reg : Registry) (year tableName : Val) :
    Except Err Table × Registry :=
  match load_raw_data fs reg year tableName with
  | .error e => (.error e, reg)
  | .ok table =>
    match lookupTable reg tableName with
    | .error e => (.error e, reg)
    | .ok tm =>
      match resolveTableMeta tm year with
      | .error e => (.error e, reg)
      | .ok rtm =>
        let p := apply_metadata_to_table reg.default_table_settings rtm table
        (p.1, updateTableSettings reg tableName p.2.settings)

/-- Modelled from the spec: `utils.construct_table_year_pairs` (module
`lfsir.utils` is not under src/) builds the cartesian product of the
selected table names and years, iterated sequentially. -/
def construct_table_year_pairs (tableNames : List String) (years : List Int) :
    List (String × Int) :=
  (tableNames.map (fun t => years.map (fun y => (t, y)))).flatten

/-- The body of the batch loop of `save_cleaned_tables` (lines 198-206).
For each (table, year) pair, in order, the source calls
`open_and_clean_table(_table_name, year)` with positional arguments,
although the signature of that function is (year, table_name); the model
passes the table name into the year parameter and the year into the
table-name parameter exactly as the source does.  A successful pair
appends a parquet file named {year}_{table}.parquet; an exception stops
the batch, keeping the files already written. -/
def saveLoop (fs : FileSystem) : Registry → List (String × Int) → List (String × Table) →
    (List (String × Table) × Option Err) × Registry
  | reg, [], acc => ((acc, none), reg)
  | reg, (t, y) :: rest, acc =>
    match open_and_clean_table fs reg (.str t) (.int y) with
    | (.ok tbl, reg2) =>
      saveLoop fs reg2 rest (acc ++ [(toString y ++ "_" ++ t ++ ".parquet", tbl)])
    | (.error e, reg2) => ((acc, some e), reg2)

/-- `save_cleaned_tables` (lines 175-207): iterate the cartesian product
of table names and years and persist each cleaned table. -/
def save_cleaned_tables (fs : FileSystem) (reg : Registry)
    (tableNames : List String) (years : List Int) :
    (List (String × Table) × Option Err) × Registry :=
  saveLoop fs reg (construct_table_year_pairs tableNames years) []

/-! ## Reference definitions used to state claims -/

/-- The effective table settings returned by `_get_table_settings`:
the document defaults when the table has no settings block, otherwise
the block with missing defaults filled in. -/
def effSettings (dts : SettingsDict) : Option SettingsDict → SettingsDict
  | none => dts
  | some s => fillDefaults s dts

/-- The table metadata after the in-place default inheritance of
`_get_table_settings` has run once. -/
def fillRTM (dts : SettingsDict) (tm : RTableMeta) : RTableMeta :=
  ⟨tm.file_code, tm.settings.map (fun s => fillDefaults s dts), tm.columns⟩

/-- The pure result of `_get_column_metadata`, separated from its
mutation of the table metadata (the two are related by `gcm_eq`
below). -/
def colRes (dts : SettingsDict) (tm : RTableMeta) (name : String) : Except Err ColMetaRes :=
  match assocFind tm.columns name with
  | some (.dict m) => .ok (.meta m)
  | some .drop => .ok .drop
  | some _ => .error (.invalidColumnMeta name)
  | none =>
    match assocFind (effSettings dts tm.settings) "missings" with
    | some (.str s) =>
      if s = "drop" then .ok .drop
      else if s = "error" then .ok .err
      else .error .invalidMissingTreatment
    | some _ => .error .invalidMissingTreatment
    | none => .error (.keyError "missings")

/-- Append-only reference assembly of a cleaned table: identical to
`apply_metadata_to_table` except that each produced column is appended,
never overwritten, so every output column visibly originates from
exactly one raw column.  The column metadata is resolved against the
unmutated table metadata, which is sound because the settings mutation
never changes a lookup result. -/
def cleanColumnsSpec (dts : SettingsDict) (tm : RTableMeta) : Table → Except Err Table
  | [] => .ok []
  | (n, c) :: rest =>
    match colRes dts tm (pyUpper n) with
    | .error e => .error e
    | .ok .drop => cleanColumnsSpec dts tm rest
    | .ok .err => .error (.unexpectedColumn n)
    | .ok (.meta m) =>
      match apply_metadata_to_column c m with
      | .error e => .error e
      | .ok c2 =>
        match m.new_name with
        | none => .error (.keyError "new_name")
        | some nn =>
          match cleanColumnsSpec dts tm rest with
          | .error e => .error e
          | .ok rest2 => .ok ((nn, c2) :: rest2)

/-- The new names of the raw columns whose metadata resolves to a
well-formed (non-sentinel) dictionary, in raw column order. -/
def plannedNames (dts : SettingsDict) (tm : RTableMeta) (raw : Table) : List String :=
  raw.filterMap (fun nc =>
    match colRes dts tm (pyUpper nc.1) with
    | .ok (.meta m) => m.new_name
    | _ => none)

/-- Whether the first string occurs as a substring of the second. -/
def subListB (needle : List Char) : List Char → Bool
  | [] => needle.isEmpty
  | c :: rest => needle.isPrefixOf (c :: rest) || subListB needle rest

/-- Substring occurrence on strings, used to state which identifiers an
exception message mentions. -/
def occursIn (needle hay : String) : Bool :=
  subListB needle.toList hay.toList

/-- A cell acceptable to the nullable Int32 cast without change: null or
an in-range integer. -/
def cellInt32OkB : Val → Bool
  | .null => true
  | .int n => int32Min ≤ n && n ≤ int32Max
  | _ => false

/-- What `_get_column_metadata` does with the listed metadata of a
column: the drop sentinel and well-formed dictionaries pass through,
everything else is invalid. -/
def listedRes (name : String) : ColMetaVal → Except Err ColMetaRes
  | .drop => .ok .drop
  | .dict m => .ok (.meta m)
  | _ => .error (.invalidColumnMeta name)

deriving instance DecidableEq for Except

/-! ## Concrete fixtures used by witnesses and counterexamples -/

/-- Column metadata declaring type float. -/
def cmFloat : ColMetaStruct := ⟨some "w", some "float", none, none, none⟩

/-- Column metadata declaring the unrecognized type name double. -/
def cmDouble : ColMetaStruct := ⟨some "d", some "double", none, none, none⟩

/-- The urban/rural category map of the spec example. -/
def catsUR : List (Val × Val) := [(.int 1, .str "Urban"), (.int 2, .str "Rural")]

/-- Column metadata declaring type category with the urban/rural map. -/
def cmCat : ColMetaStruct := ⟨some "ur", some "category", none, none, some catsUR⟩

/-- Column metadata declaring type category with a map sending two codes
to the same label. -/
def cmCatDup : ColMetaStruct :=
  ⟨some "d", some "category", none, none, some [(.int 1, .str "A"), (.int 2, .str "A")]⟩

/-- Document-wide default table settings with a drop missings policy. -/
def dts0 : SettingsDict := [("missings", .str "drop")]

/-- Resolved table metadata listing one column whose metadata is the
error sentinel. -/
def tmErrCol : RTableMeta := ⟨.str "F", none, [("X", .err)]⟩

/-- Registry table metadata for the table named data. -/
def tmData : TableMeta := ⟨.plain (.str "F"), none, [("X", .dict ⟨some "x", none, none, none, none⟩)]⟩

/-- A registry holding the single table data. -/
def reg0 : Registry := ⟨[("data", tmData)], dts0⟩

/-- Extracted data for year 1400, file code F. -/
def fs0 : FileSystem := [(("1400", "F"), [("X", [.int 7])])]

/-- Registry table metadata for a table named items with an error
missings policy. -/
def tmItems : TableMeta :=
  ⟨.plain (.str "G"), some [("missings", .str "error")],
   [("K", .dict ⟨some "k", none, none, none, none⟩)]⟩

/-- A registry holding the single table items. -/
def regItems : Registry := ⟨[("items", tmItems)], dts0⟩

/-- Extracted data for the items table, containing one listed and one
unlisted raw column. -/
def fsItems : FileSystem := [(("1400", "G"), [("K", [.int 1]), ("UNL", [.int 2])])]

/-- Column metadata renaming a raw column to x without retyping. -/
def cmX : ColMetaStruct := ⟨some "x", none, none, none, none⟩

/-- Resolved table metadata mapping two distinct raw columns to the same
new name. -/
def tmDup : RTableMeta := ⟨.str "F", none, [("A", .dict cmX), ("B", .dict cmX)]⟩

/-- Resolved table metadata mapping two raw columns to two distinct new
names. -/
def tmTwoCols : RTableMeta :=
  ⟨.str "F", none,
   [("A", .dict ⟨some "a", none, none, none, none⟩),
    ("B", .dict ⟨some "b", none, none, none, none⟩)]⟩

/-- Default settings with two keys, for the frame-effect witness. -/
def dtsTwo : SettingsDict := [("missings", .str "drop"), ("extra", .int 3)]

/-- Resolved table metadata whose settings block omits the extra key. -/
def tmPartial : RTableMeta := ⟨.str "F", some [("missings", .str "error")], []⟩

/-! # Association-list lemmas -/

theorem assocFind_append {α β : Type} [DecidableEq α] (l1 l2 : List (α × β)) (k : α) :
    assocFind (l1 ++ l2) k =
      match assocFind l1 k with
      | some v => some v
      | none => assocFind l2 k := by
  induction l1 with
  | nil => rfl
  | cons kv t ih =>
    obtain ⟨a, b⟩ := kv
    by_cases h : a = k
    · simp [assocFind, h]
    · simp [assocFind, h, ih]

theorem mem_assocFind_isSome {α β : Type} [DecidableEq α] {l : List (α × β)} {k : α} {v : β}
    (h : (k, v) ∈ l) : (assocFind l k).isSome = true := by
  induction l with
  | nil => cases h
  | cons kv t ih =>
    obtain ⟨a, b⟩ := kv
    rcases List.mem_cons.mp h with h1 | h1
    · obtain ⟨h2, h3⟩ := Prod.mk.injEq .. ▸ h1
      simp [assocFind, h2.symm]
    · by_cases ha : a = k
      · simp [assocFind, ha]
      · simpa [assocFind, ha] using ih h1

theorem not_mem_assocFind {α β : Type} [DecidableEq α] {l : List (α × β)} {k : α}
    (h : k ∉ l.map Prod.fst) : assocFind l k = none := by
  induction l with
  | nil => rfl
  | cons kv t ih =>
    obtain ⟨a, b⟩ := kv
    simp only [List.map_cons, List.mem_cons] at h
    push_neg at h
    have ha : ¬a = k := fun he => h.1 he.symm
    simp [assocFind, ha, ih h.2]

theorem setKey_cons {α β : Type} [DecidableEq α] (a : α) (b : β) (t : List (α × β))
    (k : α) (v : β) :
    setKey ((a, b) :: t) k v = (if a = k then (k, v) else (a, b)) :: setKey t k v := by
  simp only [setKey, List.map_cons]

theorem assocFind_setKey_ne {α β : Type} [DecidableEq α] (l : List (α × β)) (k : α) (v : β)
    {k2 : α} (h : k2 ≠ k) : assocFind (setKey l k v) k2 = assocFind l k2 := by
  induction l with
  | nil => rfl
  | cons kv t ih =>
    obtain ⟨a, b⟩ := kv
    rw [setKey_cons]
    by_cases ha : a = k
    · rw [if_pos ha]
      subst ha
      have h2 : ¬a = k2 := fun he => h he.symm
      simp [assocFind, h2, ih]
    · rw [if_neg ha]
      by_cases h2 : a = k2 <;> simp [assocFind, h2, ih]

theorem assocFind_setKey_self {α β : Type} [DecidableEq α] {l : List (α × β)} {k : α} (v : β)
    (h : containsKey l k = true) : assocFind (setKey l k v) k = some v := by
  induction l with
  | nil => simp [containsKey, assocFind] at h
  | cons kv t ih =>
    obtain ⟨a, b⟩ := kv
    rw [setKey_cons]
    by_cases ha : a = k
    · rw [if_pos ha]
      simp [assocFind]
    · rw [if_neg ha]
      simp only [containsKey, assocFind, if_neg ha] at h
      simp [assocFind, ha, ih h]

theorem containsKey_setKey {α β : Type} [DecidableEq α] (l : List (α × β)) (k : α) (v : β)
    (k2 : α) : containsKey (setKey l k v) k2 = containsKey l k2 := by
  induction l with
  | nil => rfl
  | cons kv t ih =>
    obtain ⟨a, b⟩ := kv
    rw [setKey_cons]
    by_cases ha : a = k
    · rw [if_pos ha]
      subst ha
      by_cases h2 : a = k2
      · simp [containsKey, assocFind, h2]
      · simp only [containsKey, assocFind, if_neg h2]
        exact ih
    · rw [if_neg ha]
      by_cases h2 : a = k2
      · simp [containsKey, assocFind, h2]
      · simp only [containsKey, assocFind, if_neg h2]
        exact ih

/-! # fillDefaults lemmas -/

theorem fillDefaults_cons (s : SettingsDict) (kv : String × Val) (t : SettingsDict) :
    fillDefaults s (kv :: t) =
      fillDefaults (if containsKey s kv.1 then s else s ++ [kv]) t := by
  simp only [fillDefaults, List.foldl_cons]

theorem fillDefaults_lookup (d : SettingsDict) (s : SettingsDict) (k : String) :
    assocFind (fillDefaults s d) k =
      match assocFind s k with
      | some v => some v
      | none => assocFind d k := by
  induction d generalizing s with
  | nil =>
    cases h : assocFind s k <;> simp [fillDefaults, h, assocFind]
  | cons kv t ih =>
    obtain ⟨a, b⟩ := kv
    rw [fillDefaults_cons]
    by_cases hc : containsKey s a = true
    · rw [if_pos hc, ih]
      by_cases ha : a = k
      · subst ha
        cases h : assocFind s a with
        | none => simp [containsKey, h] at hc
        | some v => simp [h]
      · cases h : assocFind s k <;> simp [h, assocFind, ha]
    · rw [if_neg hc, ih]
      have hnone : assocFind s a = none := by
        cases hf : assocFind s a with
        | none => rfl
        | some v => simp [containsKey, hf] at hc
      by_cases ha : a = k
      · subst ha
        rw [assocFind_append]
        simp [hnone, assocFind]
      · rw [assocFind_append]
        cases h : assocFind s k <;> simp [h, assocFind, ha]

theorem fillDefaults_stable {d s : SettingsDict}
    (h : ∀ kv ∈ d, containsKey s kv.1 = true) : fillDefaults s d = s := by
  induction d with
  | nil => rfl
  | cons kv t ih =>
    rw [fillDefaults_cons, if_pos (h kv (List.mem_cons_self kv t))]
    exact ih (fun kv2 h2 => h kv2 (List.mem_cons_of_mem kv h2))

theorem fillDefaults_idem (s d : SettingsDict) :
    fillDefaults (fillDefaults s d) d = fillDefaults s d := by
  apply fillDefaults_stable
  intro kv hkv
  have hd : (assocFind d kv.1).isSome = true := mem_assocFind_isSome (by simpa using hkv)
  rw [containsKey, fillDefaults_lookup]
  cases h : assocFind s kv.1
  · simpa [h] using hd
  · simp [h]

/-! # Cleaning-pipeline lemmas -/

theorem general_cleaning_const (col : List Val) :
    (general_cleaning col).map (fun _ => Val.null) = col.map (fun _ => Val.null) := by
  unfold general_cleaning
  split
  · rfl
  · rw [List.map_map]
    rfl

theorem cell_notStr_of_int32 (v : Val) (h : cellInt32OkB v = true) :
    cellNotStr v = true := by
  cases v <;> simp [cellInt32OkB, cellNotStr] at h ⊢

theorem isNumericDtype_of_int32 (col : List Val) (h : col.all cellInt32OkB = true) :
    isNumericDtype col = true := by
  simp only [isNumericDtype, List.all_eq_true]
  simp only [List.all_eq_true] at h
  intro v hv
  exact cell_notStr_of_int32 v (h v hv)

theorem astype_ok_of_int32 (v : Val) (h : cellInt32OkB v = true) :
    astypeInt32Cell v = .ok v := by
  cases v with
  | null => rfl
  | int n =>
    simp only [cellInt32OkB] at h
    simp only [astypeInt32Cell, if_pos h]
  | bool b => simp [cellInt32OkB] at h
  | float n d => simp [cellInt32OkB] at h
  | str s => simp [cellInt32OkB] at h

theorem mapM_astype_ok (col : List Val) (h : col.all cellInt32OkB = true) :
    col.mapM astypeInt32Cell = Except.ok col := by
  induction col with
  | nil => rfl
  | cons v t ih =>
    simp only [List.all_cons, Bool.and_eq_true] at h
    rw [List.mapM_cons, astype_ok_of_int32 v h.1, ih h.2]
    rfl

/-! # Claim C2 -/

/-- Claim C2, corrected.  The claim states that a declared type outside
the recognized set raises a configuration error naming the table and
column.  In the code, `_apply_type_to_column` has no failure branch: a
declared type matching none of the comparisons falls through and the
function returns the all-NaN series it initialized on line 142 — a
silently defaulted, all-missing column of the same length. -/
theorem claim_C2 (col : List Val) (m : ColMetaStruct) (t : String)
    (ht : m.type = some t) (hne : t ∉ recognizedTypes) :
    apply_type_to_column col m = .ok (col.map (fun _ => Val.null)) := by
  simp only [recognizedTypes, List.mem_cons, List.not_mem_nil, or_false, not_or] at hne
  obtain ⟨h1, h2, h3, h4, h5, h6, h7, h8, h9, h10⟩ := hne
  simp only [apply_type_to_column, ht]
  rw [if_neg h1, if_neg h2, if_neg (by simp [h3, h4, h5]), if_neg (by simp [h6, h7, h8, h9]),
    if_neg h10, general_cleaning_const]

/-- Witness for claim C2 at the unrecognized type name double. -/
theorem claim_C2_witness :
    apply_type_to_column [Val.int 5] cmDouble = .ok ([Val.int 5].map (fun _ => Val.null)) :=
  claim_C2 [Val.int 5] cmDouble "double" rfl (by decide)

/-- Counterexample to claim C2 as stated: on a column with declared type
double the coercion returns a defaulted all-missing column successfully
instead of raising a configuration error. -/
theorem claim_C2_counterexample :
    apply_type_to_column [Val.int 5] cmDouble = .ok [Val.null] ∧
    exceptIsOk (apply_type_to_column [Val.int 5] cmDouble) = true := by
  exact ⟨by decide, by decide⟩

/-! # Claim C3 -/

/-- Claim C3, corrected.  For a category column over integer codes,
pandas first validates that the map leaves the distinct present
categories pairwise distinct (raising ValueError otherwise); when the
validation passes, a code present in the map is relabeled and a null
stays missing, but a code absent from the map keeps its original value:
`rename_categories` passes categories missing from the dictionary
through unchanged, it does not turn them into missing values. -/
theorem claim_C3 (col : List Val) (m : ColMetaStruct) (k0 : Int) (l0 : Val)
    (cs : List (Val × Val)) (ht : m.type = some "category")
    (hc : m.categories = some ((Val.int k0, l0) :: cs))
    (hcol : col.all cellInt32OkB = true) :
    apply_type_to_column col m =
      (if renamedUnique col ((Val.int k0, l0) :: cs) then
        .ok (renameCategories col ((Val.int k0, l0) :: cs))
       else .error .duplicateCategories) := by
  have hclean : general_cleaning col = col := by
    simp [general_cleaning, isNumericDtype_of_int32 col hcol]
  have hmap : List.mapM.loop astypeInt32Cell col [] = Except.ok col := mapM_astype_ok col hcol
  simp [apply_type_to_column, ht, hclean, hc, hmap]

/-- Witness for claim C3: the urban/rural example of the spec relabels
(the map collides no present categories), and a map sending the two
present codes 1 and 2 to the same label A raises the duplicate-category
error. -/
theorem claim_C3_witness :
    apply_type_to_column [Val.int 1, Val.int 2, Val.int 9, Val.null] cmCat =
      .ok [Val.str "Urban", Val.str "Rural", Val.int 9, Val.null] ∧
    apply_type_to_column [Val.int 1, Val.int 2] cmCatDup = .error .duplicateCategories := by
  constructor
  · rw [claim_C3 [Val.int 1, Val.int 2, Val.int 9, Val.null] cmCat 1 (Val.str "Urban")
      [(Val.int 2, Val.str "Rural")] rfl rfl (by decide)]
    decide
  · rw [claim_C3 [Val.int 1, Val.int 2] cmCatDup 1 (Val.str "A")
      [(Val.int 2, Val.str "A")] rfl rfl (by decide)]
    decide

/-- Counterexample to claim C3 as stated: codes [1, 2, 9, null] with the
urban/rural map yield [Urban, Rural, 9, missing] — the unmapped code 9
is retained, not turned into a missing value. -/
theorem claim_C3_counterexample :
    apply_type_to_column [Val.int 1, Val.int 2, Val.int 9, Val.null] cmCat =
      .ok [Val.str "Urban", Val.str "Rural", Val.int 9, Val.null] ∧
    apply_type_to_column [Val.int 1, Val.int 2, Val.int 9, Val.null] cmCat ≠
      .ok [Val.str "Urban", Val.str "Rural", Val.null, Val.null] := by
  exact ⟨by decide, by decide⟩

/-! # Claim C4 -/

/-- Claim C4, corrected.  Sanitation turns whitespace-only and
hyphen-only values into missing and 3.0. parses to 3.0, but numeric text
that cannot be parsed does not coerce to missing: `pd.to_numeric` is
called with its default errors policy, so the value abc makes the whole
column conversion raise. -/
theorem claim_C4 :
    apply_type_to_column [Val.str "  ", Val.str "-", Val.str "3.0."] cmFloat =
      .ok [Val.null, Val.null, Val.float 3 1] ∧
    apply_type_to_column [Val.str "  ", Val.str "-", Val.str "3.0.", Val.str "abc"] cmFloat =
      .error (.parseError "abc") := by
  exact ⟨by decide, by decide⟩

/-- Counterexample to claim C4 as stated: on the spec example the
pipeline raises a parse error on abc instead of producing
[missing, missing, 3.0, missing]. -/
theorem claim_C4_counterexample :
    apply_type_to_column [Val.str "  ", Val.str "-", Val.str "3.0.", Val.str "abc"] cmFloat =
      .error (.parseError "abc") ∧
    apply_type_to_column [Val.str "  ", Val.str "-", Val.str "3.0.", Val.str "abc"] cmFloat ≠
      .ok [Val.null, Val.null, Val.float 3 1, Val.null] := by
  exact ⟨by decide, by decide⟩

/-! # Claim C5 -/

theorem update_settings_cons (s : FlatSettings) (kv : List String × Val) (n : FlatSettings) :
    update_settings s (kv :: n) =
      update_settings (if containsKey s kv.1 then setKey s kv.1 kv.2 else s) n := by
  simp only [update_settings, List.foldl_cons]

/-- Claim C5, confirmed.  Merging an override into the flattened default
settings maps every key path of the defaults to the override value when
the override lists it and to the default value otherwise, and a key path
absent from the defaults never appears in the merged table. -/
theorem claim_C5 (s n : FlatSettings) (hn : (n.map Prod.fst).Nodup) (k : List String) :
    assocFind (update_settings s n) k =
      match assocFind s k with
      | none => none
      | some v =>
        match assocFind n k with
        | some w => some w
        | none => some v := by
  induction n generalizing s with
  | nil =>
    cases h : assocFind s k <;> simp [update_settings, h, assocFind]
  | cons kv t ih =>
    obtain ⟨a, b⟩ := kv
    rw [update_settings_cons]
    simp only [List.map_cons, List.nodup_cons] at hn
    by_cases ha : a = k
    · subst ha
      have hnone : assocFind t a = none := not_mem_assocFind hn.1
      by_cases hc : containsKey s a = true
      · rw [if_pos hc, ih _ hn.2]
        obtain ⟨v, hv⟩ : ∃ v, assocFind s a = some v := by
          cases hf : assocFind s a with
          | none => simp [containsKey, hf] at hc
          | some v => exact ⟨v, rfl⟩
        simp [assocFind_setKey_self b hc, hnone, hv, assocFind]
      · rw [if_neg hc, ih _ hn.2]
        have hnone2 : assocFind s a = none := by
          cases hf : assocFind s a with
          | none => rfl
          | some v => simp [containsKey, hf] at hc
        simp [hnone2]
    · have heq : assocFind ((a, b) :: t) k = assocFind t k := by simp [assocFind, ha]
      by_cases hc : containsKey s a = true
      · rw [if_pos hc, ih _ hn.2, assocFind_setKey_ne s a b (fun he => ha he.symm)]
        cases h : assocFind s k <;> simp [h, heq]
      · rw [if_neg hc, ih _ hn.2]
        cases h : assocFind s k <;> simp [h, heq]

/-- Flattened default settings used by the claim C5 witness. -/
def sC5 : FlatSettings := [(["a"], .int 1), (["b"], .int 2)]

/-- Flattened override used by the claim C5 witness: it overrides one
default path and introduces one foreign path. -/
def nC5 : FlatSettings := [(["b"], .int 3), (["c"], .int 4)]

/-- Witness for claim C5: the overridden path takes the override value,
the untouched path keeps its default, and the foreign path is dropped. -/
theorem claim_C5_witness :
    assocFind (update_settings sC5 nC5) ["b"] = some (Val.int 3) ∧
    assocFind (update_settings sC5 nC5) ["a"] = some (Val.int 1) ∧
    assocFind (update_settings sC5 nC5) ["c"] = none := by
  refine ⟨?_, ?_, ?_⟩
  · rw [claim_C5 sC5 nC5 (by decide) ["b"]]
    decide
  · rw [claim_C5 sC5 nC5 (by decide) ["a"]]
    decide
  · rw [claim_C5 sC5 nC5 (by decide) ["c"]]
    decide

/-! # Claim C6 -/

theorem gts_columns (dts : SettingsDict) (tm : RTableMeta) :
    (get_table_settings dts tm).2.columns = tm.columns := by
  cases h : tm.settings <;> simp [get_table_settings, h]

/-- Claim C6, corrected.  For a listed raw column, the lookup returns
the metadata unchanged only when it is the drop sentinel or a
well-formed dictionary; any other listed value — including the error
sentinel — fails the validity check on line 111 (which accepts only
dictionaries and the drop string) and raises the schema error naming the
column. -/
theorem claim_C6 (dts : SettingsDict) (tm : RTableMeta) (name : String) (cm : ColMetaVal)
    (h : assocFind tm.columns name = some cm) :
    (get_column_metadata dts tm name).1 = listedRes name cm := by
  simp only [get_column_metadata]
  rw [gts_columns dts tm, h]
  cases cm <;> rfl

/-- Resolved table metadata listing one well-formed column, for the
claim C6 witness. -/
def tmListed : RTableMeta := ⟨.str "F", none, [("C1COL", .dict cmFloat)]⟩

/-- Witness for claim C6: a listed well-formed column metadata is
returned unchanged. -/
theorem claim_C6_witness :
    (get_column_metadata dts0 tmListed "C1COL").1 = .ok (.meta cmFloat) := by
  rw [claim_C6 dts0 tmListed "C1COL" (.dict cmFloat) (by decide)]
  rfl

/-- Counterexample to claim C6 as stated: a listed column whose metadata
is the error sentinel is rejected with the invalid-metadata error, not
returned. -/
theorem claim_C6_counterexample :
    (get_column_metadata dts0 tmErrCol "X").1 = .error (.invalidColumnMeta "X") ∧
    (get_column_metadata dts0 tmErrCol "X").1 ≠ .ok .err := by
  exact ⟨by decide, by decide⟩

/-! # Claim C10 -/

/-- Claim C10, confirmed.  When the per-table settings block omits a key
of the document-wide defaults, `_get_table_settings` writes the missing
default pairs into the settings block of the metadata object it was
given: the returned metadata holds the filled block (keeping the values
of keys that were already present, and now holding the default value at
the previously missing key) and differs from the object passed in. -/
theorem claim_C10 (dts : SettingsDict) (tm : RTableMeta) (s : SettingsDict) (k : String)
    (v : Val) (hs : tm.settings = some s) (hmiss : assocFind s k = none)
    (hdef : assocFind dts k = some v) :
    (get_table_settings dts tm).2.settings = some (fillDefaults s dts) ∧
    assocFind (fillDefaults s dts) k = some v ∧
    (∀ k2 v2, assocFind s k2 = some v2 → assocFind (fillDefaults s dts) k2 = some v2) ∧
    (get_table_settings dts tm).2 ≠ tm := by
  have h1 : (get_table_settings dts tm).2.settings = some (fillDefaults s dts) := by
    simp [get_table_settings, hs]
  refine ⟨h1, ?_, ?_, ?_⟩
  · rw [fillDefaults_lookup]
    simp [hmiss, hdef]
  · intro k2 v2 h2
    rw [fillDefaults_lookup]
    simp [h2]
  · intro he
    have h3 : some s = some (fillDefaults s dts) := by rw [← hs, ← h1, he]
    have h4 : s = fillDefaults s dts := Option.some.inj h3
    have h5 : assocFind (fillDefaults s dts) k = some v := by
      rw [fillDefaults_lookup]
      simp [hmiss, hdef]
    rw [← h4, hmiss] at h5
    exact Option.noConfusion h5

/-- Witness for claim C10: a settings block missing the extra key is
mutated to inherit it from the defaults, keeping its own missings
value. -/
theorem claim_C10_witness :
    (get_table_settings dtsTwo tmPartial).2.settings =
      some [("missings", Val.str "error"), ("extra", Val.int 3)] ∧
    (get_table_settings dtsTwo tmPartial).2 ≠ tmPartial := by
  have h := claim_C10 dtsTwo tmPartial [("missings", Val.str "error")] "extra" (Val.int 3)
    rfl (by decide) (by decide)
  refine ⟨?_, h.2.2.2⟩
  rw [h.1]
  decide

/-! # Stability of the settings mutation

The in-place default inheritance performed by `_get_table_settings` is
idempotent and never changes the outcome of a column-metadata lookup.
These lemmas let every later proof replace the threaded metadata state
by `fillRTM`. -/

theorem gts_eq (dts : SettingsDict) (tm : RTableMeta) :
    get_table_settings dts tm = (effSettings dts tm.settings, fillRTM dts tm) := by
  obtain ⟨fc, os, cols⟩ := tm
  cases os <;> rfl

theorem fillRTM_idem (dts : SettingsDict) (tm : RTableMeta) :
    fillRTM dts (fillRTM dts tm) = fillRTM dts tm := by
  obtain ⟨fc, os, cols⟩ := tm
  cases os with
  | none => rfl
  | some s => simp [fillRTM, fillDefaults_idem]

theorem eff_fill (dts : SettingsDict) (os : Option SettingsDict) :
    effSettings dts (os.map (fun s => fillDefaults s dts)) = effSettings dts os := by
  cases os <;> simp [effSettings, fillDefaults_idem]

theorem gcm_eq (dts : SettingsDict) (tm : RTableMeta) (name : String) :
    get_column_metadata dts tm name = (colRes dts tm name, fillRTM dts tm) := by
  simp only [get_column_metadata, gts_eq, fillRTM]
  cases h : assocFind tm.columns name with
  | some cm => cases cm <;> simp [colRes, h, fillRTM]
  | none =>
    cases h2 : assocFind (effSettings dts tm.settings) "missings" with
    | none => simp [colRes, h, h2, fillRTM]
    | some v =>
      cases v with
      | str s =>
        simp only [colRes, h, h2, fillRTM]
        split_ifs <;> rfl
      | null => simp [colRes, h, h2, fillRTM]
      | bool b => simp [colRes, h, h2, fillRTM]
      | int n => simp [colRes, h, h2, fillRTM]
      | float a b => simp [colRes, h, h2, fillRTM]

theorem colRes_fill (dts : SettingsDict) (tm : RTableMeta) (name : String) :
    colRes dts (fillRTM dts tm) name = colRes dts tm name := by
  simp only [colRes, fillRTM]
  rw [eff_fill]

theorem applyCols_cons (dts : SettingsDict) (tm : RTableMeta) (n : String) (c : List Val)
    (rest acc : Table) :
    applyCols dts tm ((n, c) :: rest) acc =
      (match colRes dts tm (pyUpper n) with
       | .error e => (.error e, fillRTM dts tm)
       | .ok .drop => applyCols dts (fillRTM dts tm) rest acc
       | .ok .err => (.error (.unexpectedColumn n), fillRTM dts tm)
       | .ok (.meta m) =>
         match apply_metadata_to_column c m with
         | .error e => (.error e, fillRTM dts tm)
         | .ok c2 =>
           match m.new_name with
           | none => (.error (.keyError "new_name"), fillRTM dts tm)
           | some nn => applyCols dts (fillRTM dts tm) rest (dfAssign acc nn c2)) := by
  simp only [applyCols, gcm_eq]
  cases colRes dts tm (pyUpper n) with
  | error e => rfl
  | ok r =>
    cases r with
    | drop => rfl
    | err => rfl
    | meta m =>
      cases apply_metadata_to_column c m with
      | error e => rfl
      | ok c2 => cases m.new_name <;> rfl

theorem applyCols_state (dts : SettingsDict) (tm : RTableMeta) (raw acc : Table) :
    (applyCols dts tm raw acc).2 = if raw.isEmpty then tm else fillRTM dts tm := by
  induction raw generalizing tm acc with
  | nil => simp [applyCols]
  | cons nc rest ih =>
    obtain ⟨n, c⟩ := nc
    rw [applyCols_cons]
    cases hr : colRes dts tm (pyUpper n) with
    | error e => rfl
    | ok r =>
      cases r with
      | drop =>
        dsimp only
        rw [ih, fillRTM_idem]
        simp
      | err => rfl
      | meta m =>
        dsimp only
        cases hcc : apply_metadata_to_column c m with
        | error e => rfl
        | ok c2 =>
          dsimp only
          cases m.new_name with
          | none => rfl
          | some nn =>
            dsimp only
            rw [ih, fillRTM_idem]
            simp

theorem applyCols_res_fill (dts : SettingsDict) (tm : RTableMeta) (raw acc : Table) :
    (applyCols dts (fillRTM dts tm) raw acc).1 = (applyCols dts tm raw acc).1 := by
  cases raw with
  | nil => rfl
  | cons nc rest =>
    obtain ⟨n, c⟩ := nc
    rw [applyCols_cons, applyCols_cons, colRes_fill, fillRTM_idem]

/-! # Claim C7 -/

theorem applyCols_skip_unlisted (dts : SettingsDict) (tm : RTableMeta) (n : String)
    (c : List Val) (raw2 : Table) (hn : assocFind tm.columns (pyUpper n) = none)
    (hmiss : assocFind (effSettings dts tm.settings) "missings" = some (Val.str "drop")) :
    ∀ raw1 acc, (applyCols dts tm (raw1 ++ (n, c) :: raw2) acc).1 =
      (applyCols dts tm (raw1 ++ raw2) acc).1 := by
  have hdropped : colRes dts tm (pyUpper n) = .ok .drop := by simp [colRes, hn, hmiss]
  intro raw1
  induction raw1 with
  | nil =>
    intro acc
    simp only [List.nil_append]
    rw [applyCols_cons, hdropped]
    exact applyCols_res_fill dts tm raw2 acc
  | cons p raw1' ih =>
    intro acc
    obtain ⟨pn, pc⟩ := p
    simp only [List.cons_append]
    rw [applyCols_cons, applyCols_cons]
    cases hr : colRes dts tm (pyUpper pn) with
    | error e => rfl
    | ok r =>
      cases r with
      | drop =>
        dsimp only
        rw [applyCols_res_fill, applyCols_res_fill]
        exact ih acc
      | err => rfl
      | meta m =>
        dsimp only
        cases hcc : apply_metadata_to_column pc m with
        | error e => rfl
        | ok c2 =>
          dsimp only
          cases m.new_name with
          | none => rfl
          | some nn =>
            dsimp only
            rw [applyCols_res_fill, applyCols_res_fill]
            exact ih (dfAssign acc nn c2)

theorem isPrefixOf_append_self (l t : List Char) : l.isPrefixOf (l ++ t) = true := by
  induction l with
  | nil => cases t <;> rfl
  | cons c rest ih => simp [List.isPrefixOf, ih]

theorem subListB_nil_needle (hay : List Char) : subListB [] hay = true := by
  cases hay <;> simp [subListB, List.isPrefixOf]

theorem subListB_mid (pre n post : List Char) : subListB n (pre ++ (n ++ post)) = true := by
  induction pre with
  | nil =>
    simp only [List.nil_append]
    cases n with
    | nil => exact subListB_nil_needle post
    | cons c rest =>
      have h := isPrefixOf_append_self (c :: rest) post
      simp only [List.cons_append] at h ⊢
      simp [subListB, h]
  | cons p pre' ih =>
    simp only [List.cons_append]
    simp [subListB, ih]

theorem occursIn_render_unexpectedColumn (n : String) :
    occursIn n (Err.render (.unexpectedColumn n)) = true := by
  show subListB n.toList
    ("Error: The column " ++ sq ++ n ++ sq ++ " was not found in the metadata.").toList = true
  have hsplit :
      ("Error: The column " ++ sq ++ n ++ sq ++ " was not found in the metadata.").toList =
        ("Error: The column " ++ sq).toList ++
          (n.toList ++ (sq ++ " was not found in the metadata.").toList) := by
    simp [String.toList, String.data_append, List.append_assoc]
  rw [hsplit]
  exact subListB_mid _ _ _

/-- Claim C7, corrected.  For a raw column absent from the columns
metadata: under the drop policy the cleaned result is as if the column
were not there (all other columns cleaned as usual); under the error
policy cleaning fails with the unexpected-column error, whose rendered
message names the column — but not the table: the raise site has no
table identifier, so the claim that the error names the table does not
hold. -/
theorem claim_C7 (dts : SettingsDict) (tm : RTableMeta) (n : String) (c : List Val)
    (raw1 raw2 : Table) (hn : assocFind tm.columns (pyUpper n) = none) :
    (assocFind (effSettings dts tm.settings) "missings" = some (Val.str "drop") →
      (apply_metadata_to_table dts tm (raw1 ++ (n, c) :: raw2)).1 =
        (apply_metadata_to_table dts tm (raw1 ++ raw2)).1) ∧
    (assocFind (effSettings dts tm.settings) "missings" = some (Val.str "error") →
      (apply_metadata_to_table dts tm ((n, c) :: raw2)).1 = .error (.unexpectedColumn n) ∧
      occursIn n (Err.render (.unexpectedColumn n)) = true) := by
  constructor
  · intro hmiss
    exact applyCols_skip_unlisted dts tm n c raw2 hn hmiss raw1 []
  · intro hmiss
    have herr : colRes dts tm (pyUpper n) = .ok .err := by simp [colRes, hn, hmiss]
    refine ⟨?_, occursIn_render_unexpectedColumn n⟩
    rw [apply_metadata_to_table, applyCols_cons, herr]

/-- Witness for claim C7: dropping and erroring on the concrete items
table with the unlisted raw column UNL. -/
theorem claim_C7_witness :
    (apply_metadata_to_table dts0 ⟨.str "G", none, [("K", .dict cmX)]⟩
        ([("K", [Val.int 1])] ++ [("UNL", [Val.int 2])])).1 = .ok [("x", [Val.int 1])] ∧
    (apply_metadata_to_table [("missings", .str "error")]
        ⟨.str "G", none, [("K", .dict cmX)]⟩
        ([("UNL", [Val.int 2])] ++ [("K", [Val.int 1])])).1 =
      .error (.unexpectedColumn "UNL") := by
  constructor
  · have h := (claim_C7 dts0 ⟨.str "G", none, [("K", .dict cmX)]⟩ "UNL" [Val.int 2]
      [("K", [Val.int 1])] [] (by decide)).1 (by decide)
    rw [h]
    decide
  · have h := (claim_C7 [("missings", .str "error")] ⟨.str "G", none, [("K", .dict cmX)]⟩
      "UNL" [Val.int 2] [] [("K", [Val.int 1])] (by decide)).2 (by decide)
    exact h.1

/-- Counterexample to claim C7 as stated: under the error policy the
raised message names the unexpected column but does not name the table
(here the table items never appears in the message). -/
theorem claim_C7_counterexample :
    (open_and_clean_table fsItems regItems (.int 1400) (.str "items")).1 =
      .error (.unexpectedColumn "UNL") ∧
    occursIn "UNL" (Err.render (.unexpectedColumn "UNL")) = true ∧
    occursIn "items" (Err.render (.unexpectedColumn "UNL")) = false := by
  refine ⟨by decide, by decide, by decide⟩

/-! # Claim C8 -/

theorem dfAssign_fresh (acc : Table) (k : String) (v : List Val)
    (h : assocFind acc k = none) : dfAssign acc k v = acc ++ [(k, v)] := by
  simp [dfAssign, containsKey, h]

theorem applyCols_nodup (dts : SettingsDict) (tm : RTableMeta) :
    ∀ (raw : Table) (acc : Table), (plannedNames dts tm raw).Nodup →
      (∀ nn ∈ plannedNames dts tm raw, assocFind acc nn = none) →
      (applyCols dts tm raw acc).1 =
        Except.map (fun l => acc ++ l) (cleanColumnsSpec dts tm raw) := by
  intro raw
  induction raw with
  | nil =>
    intro acc _ _
    simp [applyCols, cleanColumnsSpec, Except.map]
  | cons nc rest ih =>
    obtain ⟨n, c⟩ := nc
    intro acc hnodup hdisj
    rw [applyCols_cons]
    cases hr : colRes dts tm (pyUpper n) with
    | error e => simp [cleanColumnsSpec, hr, Except.map]
    | ok r =>
      cases r with
      | drop =>
        dsimp only
        rw [applyCols_res_fill]
        have hp : plannedNames dts tm ((n, c) :: rest) = plannedNames dts tm rest := by
          simp [plannedNames, List.filterMap_cons, hr]
        rw [hp] at hnodup hdisj
        rw [ih acc hnodup hdisj]
        simp [cleanColumnsSpec, hr]
      | err => simp [cleanColumnsSpec, hr, Except.map]
      | meta m =>
        dsimp only
        cases hcc : apply_metadata_to_column c m with
        | error e => simp [cleanColumnsSpec, hr, hcc, Except.map]
        | ok c2 =>
          dsimp only
          cases hnn : m.new_name with
          | none => simp [cleanColumnsSpec, hr, hcc, hnn, Except.map]
          | some nn =>
            dsimp only
            have hp : plannedNames dts tm ((n, c) :: rest) = nn :: plannedNames dts tm rest := by
              simp [plannedNames, List.filterMap_cons, hr, hnn]
            rw [hp] at hnodup hdisj
            rw [List.nodup_cons] at hnodup
            have hfresh : assocFind acc nn = none := hdisj nn (List.mem_cons_self nn _)
            rw [dfAssign_fresh acc nn c2 hfresh, applyCols_res_fill]
            have hdisj2 : ∀ x ∈ plannedNames dts tm rest,
                assocFind (acc ++ [(nn, c2)]) x = none := by
              intro x hx
              rw [assocFind_append]
              have h1 : assocFind acc x = none := hdisj x (List.mem_cons_of_mem nn hx)
              have h2 : ¬nn = x := fun he => hnodup.1 (he ▸ hx)
              simp [h1, assocFind, h2]
            rw [ih (acc ++ [(nn, c2)]) hnodup.2 hdisj2]
            cases hs : cleanColumnsSpec dts tm rest with
            | error e => simp [cleanColumnsSpec, hr, hcc, hnn, hs, Except.map]
            | ok r2 =>
              simp [cleanColumnsSpec, hr, hcc, hnn, hs, Except.map, List.append_assoc]

/-- Claim C8, corrected.  When the planned new names of the raw columns
are pairwise distinct, the assembled cleaned table equals the append-only
reference assembly, in which every output column visibly originates from
exactly one raw column with non-sentinel metadata.  Without that
distinctness the invariant fails: two raw columns sharing a new name
overwrite the same output column (see the counterexample). -/
theorem claim_C8 (dts : SettingsDict) (tm : RTableMeta) (raw : Table)
    (h : (plannedNames dts tm raw).Nodup) :
    (apply_metadata_to_table dts tm raw).1 = cleanColumnsSpec dts tm raw := by
  have h2 := applyCols_nodup dts tm raw [] h (fun nn _ => rfl)
  rw [apply_metadata_to_table, h2]
  cases cleanColumnsSpec dts tm raw <;> simp [Except.map]

/-- Witness for claim C8 on a table with two distinct new names. -/
theorem claim_C8_witness :
    (apply_metadata_to_table dts0 tmTwoCols [("A", [Val.int 1]), ("B", [Val.int 2])]).1 =
      cleanColumnsSpec dts0 tmTwoCols [("A", [Val.int 1]), ("B", [Val.int 2])] ∧
    cleanColumnsSpec dts0 tmTwoCols [("A", [Val.int 1]), ("B", [Val.int 2])] =
      .ok [("a", [Val.int 1]), ("b", [Val.int 2])] :=
  ⟨claim_C8 dts0 tmTwoCols [("A", [Val.int 1]), ("B", [Val.int 2])] (by decide), by decide⟩

/-- Counterexample to claim C8 as stated: raw columns A and B both carry
non-sentinel metadata with the new name x, yet the cleaned table has a
single column x holding the cleaned values of B — the contribution of A
(which cleans to [1]) was overwritten, so two distinct raw columns fed
the same cleaned column. -/
theorem claim_C8_counterexample :
    (apply_metadata_to_table dts0 tmDup [("A", [Val.int 1]), ("B", [Val.int 2])]).1 =
      .ok [("x", [Val.int 2])] ∧
    plannedNames dts0 tmDup [("A", [Val.int 1]), ("B", [Val.int 2])] = ["x", "x"] ∧
    apply_metadata_to_column [Val.int 1] cmX = .ok [Val.int 1] ∧
    ([("x", [Val.int 1])] : Table) ≠ [("x", [Val.int 2])] := by
  refine ⟨by decide, by decide, by decide, by decide⟩

/-! # Claim C9 -/

theorem update_keeps_dts (reg : Registry) (v : Val) (os : Option SettingsDict) :
    (updateTableSettings reg v os).default_table_settings = reg.default_table_settings := by
  cases v <;> rfl

theorem assocFind_updateTables (tables : List (String × TableMeta)) (t : String)
    (os : Option SettingsDict) (k : String) :
    assocFind
        (tables.map (fun kv => if kv.1 = t then (kv.1, withSettings os kv.2) else kv)) k =
      if k = t then (assocFind tables k).map (withSettings os)
      else assocFind tables k := by
  induction tables with
  | nil => simp [assocFind]
  | cons kv tl ih =>
    obtain ⟨a, tmv⟩ := kv
    simp only [List.map_cons]
    by_cases hat : a = t
    · subst hat
      rw [if_pos rfl]
      by_cases hk : k = a
      · subst hk
        rw [if_pos rfl]
        simp [assocFind]
      · rw [if_neg hk]
        have hk2 : ¬a = k := fun he => hk he.symm
        simp [assocFind, hk2, ih, hk]
    · rw [if_neg hat]
      by_cases hk : k = t
      · subst hk
        simp [assocFind, hat, ih]
      · by_cases hak : a = k
        · subst hak
          simp [assocFind, hk]
        · simp [assocFind, hak, ih, hk]

theorem updTables_idem (l : List (String × TableMeta)) (t : String) (os : Option SettingsDict) :
    ((l.map (fun kv => if kv.1 = t then (kv.1, withSettings os kv.2) else kv)).map
        (fun kv => if kv.1 = t then (kv.1, withSettings os kv.2) else kv)) =
      l.map (fun kv => if kv.1 = t then (kv.1, withSettings os kv.2) else kv) := by
  induction l with
  | nil => rfl
  | cons kv tl ih =>
    obtain ⟨a, tmv⟩ := kv
    simp only [List.map_cons, ih]
    by_cases hat : a = t
    · rw [if_pos hat]
      dsimp only
      rw [if_pos hat]
      simp [withSettings]
    · rw [if_neg hat]
      dsimp only
      rw [if_neg hat]

theorem updateTableSettings_idem (reg : Registry) (v : Val) (os : Option SettingsDict) :
    updateTableSettings (updateTableSettings reg v os) v os = updateTableSettings reg v os := by
  cases v with
  | str t =>
    simp only [updateTableSettings]
    rw [updTables_idem]
  | null => rfl
  | bool b => rfl
  | int n => rfl
  | float a b => rfl

theorem open_eq (fs : FileSystem) (reg : Registry) (year : Val) (s : String)
    (tm : TableMeta) (fc : Val) (table : Table)
    (hfind : assocFind reg.tables s = some tm)
    (hfc : resolve_metadata tm.file_code year = .ok fc)
    (hnull : ¬fc = Val.null)
    (hfs : assocFind fs (pyStr year, pyStr fc) = some table) :
    open_and_clean_table fs reg year (.str s) =
      ((apply_metadata_to_table reg.default_table_settings
          ⟨fc, tm.settings, tm.columns⟩ table).1,
       updateTableSettings reg (.str s)
         (apply_metadata_to_table reg.default_table_settings
           ⟨fc, tm.settings, tm.columns⟩ table).2.settings) := by
  have hlk : lookupTable reg (.str s) = .ok tm := by simp [lookupTable, hfind]
  simp [open_and_clean_table, load_raw_data, hlk, hfc, hnull, hfs, resolveTableMeta]

theorem apply_table_stable (dts : SettingsDict) (rtm : RTableMeta) (table : Table) :
    apply_metadata_to_table dts (apply_metadata_to_table dts rtm table).2 table =
      apply_metadata_to_table dts rtm table := by
  cases table with
  | nil => rfl
  | cons hd tl =>
    obtain ⟨n, c⟩ := hd
    have hst : (apply_metadata_to_table dts rtm ((n, c) :: tl)).2 = fillRTM dts rtm := by
      rw [apply_metadata_to_table, applyCols_state]
      rfl
    rw [hst]
    apply Prod.ext
    · rw [apply_metadata_to_table, apply_metadata_to_table, applyCols_res_fill]
    · rw [hst]
      rw [apply_metadata_to_table, applyCols_state, fillRTM_idem]
      rfl

theorem resolved_settings_stable (dts : SettingsDict) (fc : Val) (os : Option SettingsDict)
    (cols : List (String × ColMetaVal)) (table : Table) :
    (⟨fc, (apply_metadata_to_table dts ⟨fc, os, cols⟩ table).2.settings, cols⟩ : RTableMeta) =
      (apply_metadata_to_table dts ⟨fc, os, cols⟩ table).2 := by
  cases table with
  | nil => rfl
  | cons hd tl =>
    obtain ⟨n, c⟩ := hd
    have hst : (apply_metadata_to_table dts ⟨fc, os, cols⟩ ((n, c) :: tl)).2 =
        fillRTM dts ⟨fc, os, cols⟩ := by
      rw [apply_metadata_to_table, applyCols_state]
      rfl
    rw [hst]
    rfl

/-- Claim C9, confirmed.  Running the cleaning operation twice in
succession over the same raw data source, with nothing but the first run
itself touching the registry in between, returns the same cleaned-table
result and leaves the registry in the same state: the only side effect —
the in-place default inheritance into the settings block — is idempotent
and never changes a lookup outcome. -/
theorem claim_C9 (fs : FileSystem) (reg : Registry) (year tableName : Val) :
    open_and_clean_table fs (open_and_clean_table fs reg year tableName).2 year tableName =
      open_and_clean_table fs reg year tableName := by
  cases tableName with
  | null =>
    have h1 : open_and_clean_table fs reg year .null = (.error (.keyError (pyStr .null)), reg) := by
      simp [open_and_clean_table, load_raw_data, lookupTable]
    rw [h1]
    exact h1
  | bool b =>
    have h1 : open_and_clean_table fs reg year (.bool b) =
        (.error (.keyError (pyStr (.bool b))), reg) := by
      simp [open_and_clean_table, load_raw_data, lookupTable]
    rw [h1]
    exact h1
  | int n =>
    have h1 : open_and_clean_table fs reg year (.int n) =
        (.error (.keyError (pyStr (.int n))), reg) := by
      simp [open_and_clean_table, load_raw_data, lookupTable]
    rw [h1]
    exact h1
  | float a b =>
    have h1 : open_and_clean_table fs reg year (.float a b) =
        (.error (.keyError (pyStr (.float a b))), reg) := by
      simp [open_and_clean_table, load_raw_data, lookupTable]
    rw [h1]
    exact h1
  | str s =>
    cases hf : assocFind reg.tables s with
    | none =>
      have h1 : open_and_clean_table fs reg year (.str s) = (.error (.keyError s), reg) := by
        simp [open_and_clean_table, load_raw_data, lookupTable, hf]
      rw [h1]
      exact h1
    | some tm =>
      have hlk : lookupTable reg (.str s) = .ok tm := by simp [lookupTable, hf]
      cases hfc : resolve_metadata tm.file_code year with
      | error e =>
        have h1 : open_and_clean_table fs reg year (.str s) = (.error e, reg) := by
          simp [open_and_clean_table, load_raw_data, hlk, hfc]
        rw [h1]
        exact h1
      | ok fc =>
        by_cases hnull : fc = Val.null
        · have h1 : open_and_clean_table fs reg year (.str s) =
              (.error (.tableNotAvailable (pyStr (.str s)) (pyStr year)), reg) := by
            simp [open_and_clean_table, load_raw_data, hlk, hfc, hnull]
          rw [h1]
          exact h1
        · cases hfs : assocFind fs (pyStr year, pyStr fc) with
          | none =>
            have h1 : open_and_clean_table fs reg year (.str s) = (.error .fileNotFound, reg) := by
              simp [open_and_clean_table, load_raw_data, hlk, hfc, hnull, hfs]
            rw [h1]
            exact h1
          | some table =>
            have h1 := open_eq fs reg year s tm fc table hf hfc hnull hfs
            have hfind2 : assocFind (updateTableSettings reg (.str s)
                (apply_metadata_to_table reg.default_table_settings
                  ⟨fc, tm.settings, tm.columns⟩ table).2.settings).tables s =
                some (withSettings (apply_metadata_to_table reg.default_table_settings
                  ⟨fc, tm.settings, tm.columns⟩ table).2.settings tm) := by
              simp only [updateTableSettings]
              rw [assocFind_updateTables]
              simp [hf]
            have h2 := open_eq fs (updateTableSettings reg (.str s)
                (apply_metadata_to_table reg.default_table_settings
                  ⟨fc, tm.settings, tm.columns⟩ table).2.settings) year s
                (withSettings (apply_metadata_to_table reg.default_table_settings
                  ⟨fc, tm.settings, tm.columns⟩ table).2.settings tm) fc table hfind2 hfc hnull hfs
            rw [update_keeps_dts] at h2
            dsimp only [withSettings] at h2
            rw [resolved_settings_stable, apply_table_stable, updateTableSettings_idem] at h2
            rw [h1]
            exact h2

/-! # Claim C1 -/

/-- Claim C1, a defect in the code.  The batch loop calls
`open_and_clean_table(_table_name, year)` positionally although the
signature of that function is (year, table_name), so the year parameter
receives the table name and the table-name parameter receives the year.
On a registry holding the table data for year 1400, the direct call
open_and_clean_table(1400, data) succeeds, while the batch over the same
selection subscripts the registry with the integer year, fails with a
KeyError on the very first pair, and persists nothing — instead of
writing 1400_data.parquet with the cleaned table as the docstrings and
the claim describe. -/
theorem claim_C1 :
    (open_and_clean_table fs0 reg0 (.int 1400) (.str "data")).1 = .ok [("x", [Val.int 7])] ∧
    save_cleaned_tables fs0 reg0 ["data"] [1400] = (([], some (.keyError "1400")), reg0) := by
  refine ⟨by decide, by rfl⟩

end LFSIR
